import Mathlib

/-!
Verification of the periodic visual-detection pipeline of the Agrismart
repository.  The Lean definitions below are shallow embeddings of the three
JavaScript detection services:

* `AnimalDetectionService` (the YOLO-based service: model post-processing,
  IoU, NMS, lifecycle, settings update),
* `RealAnimalDetectionService` (the heuristic service: motion / shape /
  color / texture scores and their weighted combination),
* `SimpleRealDetection` (the route-wired service: candidate camera URLs,
  brightness/variance analysis, cooldown gate, notification bus).

JavaScript numbers are modelled as rationals (`ℚ`); `Math.random()` results
appear as explicit parameters constrained to `[0,1)` where a claim needs
them; wall-clock timestamps (`Date.now()`) are naturals; exceptions are
modelled with `Except`/`Option`.
-/

/-- A bounding box `{x, y, width, height}` in normalized coordinates, as
built by all three services. -/
structure BBox where
  x : ℚ
  y : ℚ
  width : ℚ
  height : ℚ
deriving DecidableEq, Repr

/-- The BoundingBox invariant of the spec data model: `0 ≤ x, y`,
`x + width ≤ 1` and `y + height ≤ 1`. -/
def BBoxValid (b : BBox) : Prop :=
  0 ≤ b.x ∧ 0 ≤ b.y ∧ b.x + b.width ≤ 1 ∧ b.y + b.height ≤ 1

instance (b : BBox) : Decidable (BBoxValid b) := by
  unfold BBoxValid; infer_instance

/-- Embeds `calculateIoU` of `AnimalDetectionService`: intersection corners
by max/min, `0` when `x2 <= x1 || y2 <= y1`, else intersection over union. -/
def calculateIoU (box1 box2 : BBox) : ℚ :=
  let x1 := max box1.x box2.x
  let y1 := max box1.y box2.y
  let x2 := min (box1.x + box1.width) (box2.x + box2.width)
  let y2 := min (box1.y + box1.height) (box2.y + box2.height)
  if x2 ≤ x1 ∨ y2 ≤ y1 then 0
  else
    let intersection := (x2 - x1) * (y2 - y1)
    let union := box1.width * box1.height + box2.width * box2.height - intersection
    intersection / union

theorem calculateIoU_comm (b1 b2 : BBox) : calculateIoU b1 b2 = calculateIoU b2 b1 := by
  unfold calculateIoU
  rw [max_comm b1.x b2.x, max_comm b1.y b2.y,
    min_comm (b1.x + b1.width) (b2.x + b2.width),
    min_comm (b1.y + b1.height) (b2.y + b2.height)]
  rw [add_comm (b1.width * b1.height) (b2.width * b2.height)]

theorem calculateIoU_self (b : BBox) (hw : 0 < b.width) (hh : 0 < b.height) :
    calculateIoU b b = 1 := by
  unfold calculateIoU
  simp only [max_self, min_self]
  have hx : ¬ (b.x + b.width ≤ b.x) := by linarith
  have hy : ¬ (b.y + b.height ≤ b.y) := by linarith
  rw [if_neg (by tauto)]
  have h1 : (b.x + b.width - b.x) * (b.y + b.height - b.y) = b.width * b.height := by ring
  rw [h1]
  have h2 : b.width * b.height + b.width * b.height - b.width * b.height =
      b.width * b.height := by ring
  rw [h2]
  exact div_self (by positivity)

theorem calculateIoU_of_empty_intersection (b1 b2 : BBox)
    (h : min (b1.x + b1.width) (b2.x + b2.width) ≤ max b1.x b2.x ∨
      min (b1.y + b1.height) (b2.y + b2.height) ≤ max b1.y b2.y) :
    calculateIoU b1 b2 = 0 := by
  unfold calculateIoU
  rw [if_pos h]

/-- C3: the IoU function is symmetric; it returns exactly `1` when both
arguments are the same box, provided the box has positive width and height;
and it returns exactly `0` whenever the computed intersection corners are
empty (`x2 ≤ x1` or `y2 ≤ y1`). -/
theorem iou_symm_self_empty :
    (∀ b1 b2 : BBox, calculateIoU b1 b2 = calculateIoU b2 b1) ∧
    (∀ b : BBox, 0 < b.width → 0 < b.height → calculateIoU b b = 1) ∧
    (∀ b1 b2 : BBox,
      (min (b1.x + b1.width) (b2.x + b2.width) ≤ max b1.x b2.x ∨
        min (b1.y + b1.height) (b2.y + b2.height) ≤ max b1.y b2.y) →
      calculateIoU b1 b2 = 0) :=
  ⟨calculateIoU_comm, calculateIoU_self, calculateIoU_of_empty_intersection⟩

/-- C3 witness: the conjuncts of `iou_symm_self_empty` evaluated at concrete
boxes (the unit box for identity, two disjoint boxes for the zero case). -/
theorem iou_symm_self_empty_witness :
    calculateIoU ⟨0, 0, 1, 1⟩ ⟨1/2, 0, 1, 1⟩ = calculateIoU ⟨1/2, 0, 1, 1⟩ ⟨0, 0, 1, 1⟩ ∧
    calculateIoU ⟨0, 0, 1, 1⟩ ⟨0, 0, 1, 1⟩ = 1 ∧
    calculateIoU ⟨0, 0, 1, 1⟩ ⟨2, 2, 1, 1⟩ = 0 :=
  ⟨iou_symm_self_empty.1 ⟨0, 0, 1, 1⟩ ⟨1/2, 0, 1, 1⟩,
   iou_symm_self_empty.2.1 ⟨0, 0, 1, 1⟩ (by norm_num) (by norm_num),
   iou_symm_self_empty.2.2 ⟨0, 0, 1, 1⟩ ⟨2, 2, 1, 1⟩ (by norm_num)⟩

/-- C3 counterexample: a degenerate (zero-area) box compared with itself has
IoU `0`, not `1`, refuting "returns exactly 1.0 when both arguments are the
same box" for arbitrary boxes. -/
theorem iou_self_degenerate_ne_one :
    ¬ calculateIoU ⟨0, 0, 0, 0⟩ ⟨0, 0, 0, 0⟩ = 1 := by
  norm_num [calculateIoU]

/-- A candidate/detection record `{class, confidence, bbox}` as pushed by
`postprocessResults` (the ISO timestamp string attached by the source is not
modelled; no claim mentions it).  `class` is a Lean keyword, hence `cls`. -/
structure Detection where
  cls : String
  confidence : ℚ
  bbox : BBox
deriving DecidableEq, Repr

/-- The NMS IoU threshold `this.nmsThreshold = 0.4` of
`AnimalDetectionService`. -/
def nmsThreshold : ℚ := 2/5

/-- The confidence threshold `this.confidenceThreshold = 0.5` of
`AnimalDetectionService`. -/
def confidenceThreshold : ℚ := 1/2

/-- The comparator `(a, b) => b.confidence - a.confidence` used with JS
`sort`: `a` goes no later than `b` iff `b.confidence ≤ a.confidence`. -/
def confGE (a b : Detection) : Prop := b.confidence ≤ a.confidence

instance : DecidableRel confGE := fun a b =>
  inferInstanceAs (Decidable (b.confidence ≤ a.confidence))

instance : IsTotal Detection confGE := ⟨fun a b => le_total b.confidence a.confidence⟩

instance : IsTrans Detection confGE := ⟨fun _ _ _ h1 h2 => le_trans h2 h1⟩

/-- The keep/suppress loop of `applyNMS` on the already-sorted list: the
head is kept, and every later candidate whose IoU with it exceeds
`nmsThreshold` is suppressed (equivalently, only those with IoU `≤` the
threshold stay in play for the next rounds). -/
def nmsLoop : List Detection → List Detection
  | [] => []
  | d :: rest =>
    d :: nmsLoop (rest.filter (fun d2 => decide (calculateIoU d.bbox d2.bbox ≤ nmsThreshold)))
termination_by l => l.length
decreasing_by
  simp only [List.length_cons]
  exact Nat.lt_succ_of_le (List.length_filter_le _ _)

/-- Embeds `applyNMS`: `if (detections.length <= 1) return detections;`,
otherwise sort by descending confidence and run the suppression loop. -/
def applyNMS (detections : List Detection) : List Detection :=
  if detections.length ≤ 1 then detections
  else nmsLoop (List.insertionSort confGE detections)

theorem nmsLoop_sublist : ∀ l : List Detection, (nmsLoop l).Sublist l
  | [] => by rw [nmsLoop]
  | d :: rest => by
    rw [nmsLoop]
    exact (nmsLoop_sublist _).trans (List.filter_sublist _) |>.cons₂ d
termination_by l => l.length
decreasing_by
  simp only [List.length_cons]
  exact Nat.lt_succ_of_le (List.length_filter_le _ _)

theorem nmsLoop_pairwise_le :
    ∀ l : List Detection,
      (nmsLoop l).Pairwise (fun a b => calculateIoU a.bbox b.bbox ≤ nmsThreshold)
  | [] => by rw [nmsLoop]; exact List.Pairwise.nil
  | d :: rest => by
    rw [nmsLoop]
    refine List.Pairwise.cons ?_ (nmsLoop_pairwise_le _)
    intro b hb
    have hb' := ((nmsLoop_sublist _).subset) hb
    have := List.of_mem_filter hb'
    exact of_decide_eq_true this
termination_by l => l.length
decreasing_by
  simp only [List.length_cons]
  exact Nat.lt_succ_of_le (List.length_filter_le _ _)

theorem applyNMS_subset : ∀ d ∈ applyNMS l, d ∈ l := by
  intro d hd
  unfold applyNMS at hd
  split at hd
  · exact hd
  · exact (List.perm_insertionSort confGE l).subset ((nmsLoop_sublist _).subset hd)

theorem applyNMS_length_le (l : List Detection) : (applyNMS l).length ≤ l.length := by
  unfold applyNMS
  split
  · exact le_rfl
  · exact le_of_le_of_eq ((nmsLoop_sublist _).length_le) (List.perm_insertionSort confGE l).length_eq

theorem applyNMS_sorted (l : List Detection) : (applyNMS l).Sorted confGE := by
  unfold applyNMS
  split
  · rename_i h
    match l, h with
    | [], _ => exact List.sorted_nil
    | [d], _ => exact List.sorted_singleton d
  · exact ((List.sorted_insertionSort confGE l).sublist (nmsLoop_sublist _))

theorem applyNMS_pairwise_le (l : List Detection) :
    (applyNMS l).Pairwise (fun a b => calculateIoU a.bbox b.bbox ≤ nmsThreshold) := by
  unfold applyNMS
  split
  · rename_i h
    match l, h with
    | [], _ => exact List.Pairwise.nil
    | [d], _ => exact List.pairwise_singleton _ d
  · exact nmsLoop_pairwise_le _

/-- C2 (amended): NMS output is never larger than its input, consists of
input elements, is sorted by descending confidence, any two survivors have
pairwise IoU at most (`≤`, not strictly less than) `nmsThreshold`, and with
one or zero candidates the input is returned unchanged. -/
theorem applyNMS_spec (l : List Detection) :
    (applyNMS l).length ≤ l.length ∧
    (∀ d ∈ applyNMS l, d ∈ l) ∧
    (applyNMS l).Sorted confGE ∧
    (applyNMS l).Pairwise (fun a b => calculateIoU a.bbox b.bbox ≤ nmsThreshold) ∧
    (l.length ≤ 1 → applyNMS l = l) :=
  ⟨applyNMS_length_le l, fun d hd => applyNMS_subset d hd, applyNMS_sorted l,
   applyNMS_pairwise_le l, fun h => by unfold applyNMS; rw [if_pos h]⟩

/-- C2 witness: `applyNMS_spec` evaluated on a concrete singleton list. -/
theorem applyNMS_spec_witness :
    applyNMS [⟨"elephant", 9/10, ⟨0, 0, 1/2, 1/2⟩⟩] = [⟨"elephant", 9/10, ⟨0, 0, 1/2, 1/2⟩⟩] :=
  (applyNMS_spec [⟨"elephant", 9/10, ⟨0, 0, 1/2, 1/2⟩⟩]).2.2.2.2 (by norm_num)

/-- The COCO class-name table of `AnimalDetectionService` (80 entries). -/
def classNames : List String :=
  ["person", "bicycle", "car", "motorcycle", "airplane", "bus", "train", "truck", "boat",
   "traffic light", "fire hydrant", "stop sign", "parking meter", "bench", "bird", "cat",
   "dog", "horse", "sheep", "cow", "elephant", "bear", "zebra", "giraffe", "backpack",
   "umbrella", "handbag", "tie", "suitcase", "frisbee", "skis", "snowboard", "sports ball",
   "kite", "baseball bat", "baseball glove", "skateboard", "surfboard", "tennis racket",
   "bottle", "wine glass", "cup", "fork", "knife", "spoon", "bowl", "banana", "apple",
   "sandwich", "orange", "broccoli", "carrot", "hot dog", "pizza", "donut", "cake", "chair",
   "couch", "potted plant", "bed", "dining table", "toilet", "tv", "laptop", "mouse",
   "remote", "keyboard", "cell phone", "microwave", "oven", "toaster", "sink",
   "refrigerator", "book", "clock", "vase", "scissors", "teddy bear", "hair drier",
   "toothbrush"]

/-- The allow-list `animalClasses = [20, 15, 16, 17, 18, 19, 21, 22, 23]`. -/
def animalClasses : List ℤ := [20, 15, 16, 17, 18, 19, 21, 22, 23]

/-- The model input size `this.inputSize = 640`. -/
def inputSize : ℚ := 640

/-- One 85-float anchor record of the YOLO output: 4 box coords, objectness
and 80 class scores. -/
structure Anchor where
  x : ℚ
  y : ℚ
  w : ℚ
  h : ℚ
  conf : ℚ
  classScores : List ℚ

/-- The max-class-score scan of `postprocessResults`: fold over indexed
scores starting from `(0, -1)`, updating on strict improvement. -/
def maxScoreIdx (scores : List ℚ) : ℚ × ℤ :=
  scores.enum.foldl (fun acc p => if acc.1 < p.2 then (p.2, (p.1 : ℤ)) else acc) (0, -1)

/-- The bounds clamp of `postprocessResults`:
`normalizedX = max(0, min(1, x1))`, `normalizedW = max(0, min(1 - normalizedX, width))`,
and likewise for `y`/`height`. -/
def clampBox (x1 y1 w h : ℚ) : BBox :=
  let nx := max 0 (min 1 x1)
  let ny := max 0 (min 1 y1)
  ⟨nx, ny, max 0 (min (1 - nx) w), max 0 (min (1 - ny) h)⟩

/-- Per-anchor decoding of `postprocessResults`: skip below objectness
threshold, find the max class score, gate on combined confidence and the
animal allow-list, convert center box to corners, normalize by `inputSize`
and clamp into bounds. -/
def decodeAnchor (a : Anchor) : Option Detection :=
  if a.conf < confidenceThreshold then none
  else
    let m := maxScoreIdx a.classScores
    let totalConfidence := a.conf * m.1
    if confidenceThreshold ≤ totalConfidence ∧ m.2 ∈ animalClasses then
      some ⟨classNames.getD m.2.toNat "", totalConfidence,
        clampBox ((a.x - a.w / 2) / inputSize) ((a.y - a.h / 2) / inputSize)
          (a.w / inputSize) (a.h / inputSize)⟩
    else none

/-- Embeds `postprocessResults` over decoded anchors (the flat `Float32`
output tensor is presented anchor-wise): decode each anchor, then apply
Non-Maximum Suppression. -/
def postprocessResults (anchors : List Anchor) : List Detection :=
  applyNMS (anchors.filterMap decodeAnchor)

/-- The synthesized bounding box of `SimpleRealDetection.analyzeFrame`:
`x = 0.25 + r*0.3`, `y = 0.25 + r*0.3`, `width = 0.2 + r*0.25`,
`height = 0.2 + r*0.25` with four independent `Math.random()` draws. -/
def simpleBBox (r1 r2 r3 r4 : ℚ) : BBox :=
  ⟨1/4 + r1 * (3/10), 1/4 + r2 * (3/10), 1/5 + r3 * (1/4), 1/5 + r4 * (1/4)⟩

/-- The synthesized bounding box of
`RealAnimalDetectionService.combineAnalysisResults`: `x = 0.2 + r*0.4`,
`y = 0.2 + r*0.4`, `width = 0.2 + r*0.3`, `height = 0.2 + r*0.3`. -/
def combineBBox (r1 r2 r3 r4 : ℚ) : BBox :=
  ⟨1/5 + r1 * (2/5), 1/5 + r2 * (2/5), 1/5 + r3 * (3/10), 1/5 + r4 * (3/10)⟩

theorem clampBox_valid (x1 y1 w h : ℚ) : BBoxValid (clampBox x1 y1 w h) := by
  unfold clampBox BBoxValid
  refine ⟨le_max_left 0 _, le_max_left 0 _, ?_, ?_⟩
  · have hx1 : max 0 (min 1 x1) ≤ 1 := max_le (by norm_num) (min_le_left 1 x1)
    have : max 0 (min (1 - max 0 (min 1 x1)) w) ≤ 1 - max 0 (min 1 x1) :=
      max_le (by linarith) (min_le_left _ w)
    simp only
    linarith
  · have hy1 : max 0 (min 1 y1) ≤ 1 := max_le (by norm_num) (min_le_left 1 y1)
    have : max 0 (min (1 - max 0 (min 1 y1)) h) ≤ 1 - max 0 (min 1 y1) :=
      max_le (by linarith) (min_le_left _ h)
    simp only
    linarith

theorem decodeAnchor_bbox (a : Anchor) (d : Detection) (h : decodeAnchor a = some d) :
    BBoxValid d.bbox := by
  unfold decodeAnchor at h
  split at h
  · exact absurd h (by simp)
  · dsimp only at h
    split at h
    · cases h
      exact clampBox_valid _ _ _ _
    · exact absurd h (by simp)

theorem postprocessResults_bbox_valid (anchors : List Anchor) :
    ∀ d ∈ postprocessResults anchors, BBoxValid d.bbox := by
  intro d hd
  have hmem := applyNMS_subset d hd
  rcases List.mem_filterMap.mp hmem with ⟨a, _, ha⟩
  exact decodeAnchor_bbox a d ha

/-- C1 (amended): boxes emitted by the model post-processing path and by
the simple analysis path satisfy the BoundingBox invariant, but a box from
the heuristic combination path (`combineAnalysisResults`) only satisfies
`0 ≤ x, y` with `x + width` and `y + height` bounded by `1.1`, and can
exceed the unit square. -/
theorem produced_bbox_bounds :
    (∀ anchors : List Anchor, ∀ d ∈ postprocessResults anchors, BBoxValid d.bbox) ∧
    (∀ r1 r2 r3 r4 : ℚ, 0 ≤ r1 → r1 ≤ 1 → 0 ≤ r2 → r2 ≤ 1 → 0 ≤ r3 → r3 ≤ 1 →
      0 ≤ r4 → r4 ≤ 1 → BBoxValid (simpleBBox r1 r2 r3 r4)) ∧
    (∀ r1 r2 r3 r4 : ℚ, 0 ≤ r1 → r1 ≤ 1 → 0 ≤ r2 → r2 ≤ 1 → 0 ≤ r3 → r3 ≤ 1 →
      0 ≤ r4 → r4 ≤ 1 →
      0 ≤ (combineBBox r1 r2 r3 r4).x ∧ 0 ≤ (combineBBox r1 r2 r3 r4).y ∧
      (combineBBox r1 r2 r3 r4).x + (combineBBox r1 r2 r3 r4).width ≤ 11/10 ∧
      (combineBBox r1 r2 r3 r4).y + (combineBBox r1 r2 r3 r4).height ≤ 11/10) := by
  refine ⟨postprocessResults_bbox_valid, ?_, ?_⟩
  · intro r1 r2 r3 r4 h1 h1' h2 h2' h3 h3' h4 h4'
    unfold simpleBBox BBoxValid
    refine ⟨by nlinarith, by nlinarith, by nlinarith, by nlinarith⟩
  · intro r1 r2 r3 r4 h1 h1' h2 h2' h3 h3' h4 h4'
    unfold combineBBox
    refine ⟨by nlinarith, by nlinarith, by nlinarith, by nlinarith⟩

/-- C1 witness: `produced_bbox_bounds` applied at a concrete anchor list
and at concrete random draws `r = 1/2`. -/
theorem produced_bbox_bounds_witness :
    (∀ d ∈ postprocessResults [⟨320, 320, 160, 160, 9/10, List.replicate 20 0 ++ [9/10]⟩],
      BBoxValid d.bbox) ∧
    BBoxValid (simpleBBox (1/2) (1/2) (1/2) (1/2)) ∧
    (combineBBox (1/2) (1/2) (1/2) (1/2)).x + (combineBBox (1/2) (1/2) (1/2) (1/2)).width
      ≤ 11/10 :=
  ⟨produced_bbox_bounds.1 _,
   produced_bbox_bounds.2.1 (1/2) (1/2) (1/2) (1/2) (by norm_num) (by norm_num)
     (by norm_num) (by norm_num) (by norm_num) (by norm_num) (by norm_num) (by norm_num),
   (produced_bbox_bounds.2.2 (1/2) (1/2) (1/2) (1/2) (by norm_num) (by norm_num)
     (by norm_num) (by norm_num) (by norm_num) (by norm_num) (by norm_num)
     (by norm_num)).2.2.1⟩

/-- C1 counterexample: with legal `Math.random()` draws `0.9` for the `x`
and `width` positions, the heuristic combination box has
`x + width = 0.56 + 0.47 = 1.03 > 1`, violating the BoundingBox invariant. -/
theorem combineBBox_violates_invariant :
    (0 ≤ (9 : ℚ)/10 ∧ (9 : ℚ)/10 < 1) ∧
    ¬ BBoxValid (combineBBox (9/10) 0 (9/10) 0) := by
  constructor
  · norm_num
  · unfold BBoxValid combineBBox
    norm_num

/-- The per-pixel comparison loop of `RealAnimalDetectionService.detectMotion`
on two equal-sized grayscale buffers (320x240 in the source): absolute
pixel differences, count of changes above the fixed delta `30`, and
`motionScore = min(1, (changePercentage * 10 + avgDiff / 255) / 2)`. -/
def detectMotionScore (current previous : List ℚ) : ℚ :=
  let diffs := List.zipWith (fun a b => |a - b|) current previous
  let totalDiff := diffs.sum
  let significantChanges := ((diffs.filter (fun d => decide (30 < d))).length : ℚ)
  let avgDiff := totalDiff / (current.length : ℚ)
  let changePercentage := significantChanges / (current.length : ℚ)
  min 1 ((changePercentage * 10 + avgDiff / 255) / 2)

/-- `detectMotion` returns score `0` when no previous frame is stored, else
compares the two grayscale buffers. -/
def detectMotion (lastFrameData : Option (List ℚ)) (current : List ℚ) : ℚ :=
  match lastFrameData with
  | none => 0
  | some previous => detectMotionScore current previous

/-- `analyzeShapes`: `shapeScore = min(1, edgeRatio * 5)` where `edgeRatio`
is the fraction of strong-edge pixels after the 3x3 high-pass kernel. -/
def shapeScoreOf (edgeRatio : ℚ) : ℚ := min 1 (edgeRatio * 5)

/-- `analyzeColorPatterns`: `min(1, (earthy ? 0.7 : 0.3) + (colorVariance / 255) * 0.5)`. -/
def colorScoreOf (isEarthyTone : Bool) (colorVariance : ℚ) : ℚ :=
  min 1 ((if isEarthyTone then 7/10 else 3/10) + colorVariance / 255 * (1/2))

/-- `analyzeTextures`: `textureScore = min(1, avgTextureVariance / 1000)`. -/
def textureScoreOf (avgTextureVariance : ℚ) : ℚ := min 1 (avgTextureVariance / 1000)

/-- The weighted combination of `combineAnalysisResults`:
motion `0.4`, shapes `0.25`, colors `0.2`, textures `0.15`. -/
def combineConfidence (motion shapes colors textures : ℚ) : ℚ :=
  motion * (2/5) + shapes * (1/4) + colors * (1/5) + textures * (3/20)

/-- The confidence threshold `this.confidenceThreshold = 0.6` of
`RealAnimalDetectionService`. -/
def heuristicConfidenceThreshold : ℚ := 3/5

/-- The detection gate of `analyzeImageForAnimals`: a candidate is produced
iff the combined score strictly exceeds the threshold. -/
def heuristicDetects (motion shapes colors textures : ℚ) : Bool :=
  decide (heuristicConfidenceThreshold < combineConfidence motion shapes colors textures)

theorem zipWith_absdiff_self (l : List ℚ) :
    List.zipWith (fun a b => |a - b|) l l = List.replicate l.length 0 := by
  induction l with
  | nil => rfl
  | cons a t ih => simp [List.zipWith, ih, List.replicate]

theorem detectMotionScore_self (buf : List ℚ) : detectMotionScore buf buf = 0 := by
  unfold detectMotionScore
  rw [zipWith_absdiff_self]
  have hfilter : (List.replicate buf.length (0 : ℚ)).filter (fun d => decide (30 < d)) = [] := by
    rw [List.filter_eq_nil_iff]
    intro a ha
    have := List.eq_of_mem_replicate ha
    subst this
    simp
  dsimp only
  rw [hfilter]
  simp

/-- C8: with two identical successive frames the heuristic motion score is
exactly `0`, and then — whatever the shape, color and texture inputs are,
since each of those scores is clamped to at most `1` — the weighted sum
stays at or below the `0.6` threshold, so no detection is produced that
tick. -/
theorem identical_frames_no_detection
    (buf : List ℚ) (edgeRatio : ℚ) (isEarthyTone : Bool) (colorVariance : ℚ)
    (avgTextureVariance : ℚ) :
    detectMotion (some buf) buf = 0 ∧
    heuristicDetects (detectMotion (some buf) buf) (shapeScoreOf edgeRatio)
      (colorScoreOf isEarthyTone colorVariance) (textureScoreOf avgTextureVariance) = false := by
  have hmotion : detectMotion (some buf) buf = 0 := detectMotionScore_self buf
  refine ⟨hmotion, ?_⟩
  rw [hmotion]
  unfold heuristicDetects
  rw [decide_eq_false_iff_not]
  intro hlt
  have hs : shapeScoreOf edgeRatio ≤ 1 := min_le_left 1 _
  have hc : colorScoreOf isEarthyTone colorVariance ≤ 1 := min_le_left 1 _
  have ht : textureScoreOf avgTextureVariance ≤ 1 := min_le_left 1 _
  unfold combineConfidence heuristicConfidenceThreshold at hlt
  linarith

/-- C8 witness: `identical_frames_no_detection` evaluated on a concrete
frame buffer and maximal other scores. -/
theorem identical_frames_no_detection_witness :
    detectMotion (some [100, 120, 140]) [100, 120, 140] = 0 ∧
    heuristicDetects (detectMotion (some [100, 120, 140]) [100, 120, 140])
      (shapeScoreOf 1) (colorScoreOf true 255) (textureScoreOf 2000) = false :=
  identical_frames_no_detection [100, 120, 140] 1 true 255 2000

/-- Lifecycle-relevant state of `SimpleRealDetection`.  `timerInterval`
models `intervalId`: `some i` is a live `setInterval` timer firing every
`i` ms (the interval captured at creation), `none` is no timer. -/
structure SRDState where
  isRunning : Bool
  timerInterval : Option ℕ
  cameraUrl : String
  detectionInterval : ℕ
  lastDetectionTime : ℕ
deriving DecidableEq, Repr

/-- `SimpleRealDetection.startDetection` with the camera probe outcome as a
parameter: fail fast when already running; set `isRunning`, probe; on probe
failure reset `isRunning` to `false` and return failure; on success create
the timer at the current `detectionInterval`. -/
def SRD_start (s : SRDState) (probeOk : Bool) : SRDState × Bool :=
  if s.isRunning then (s, false)
  else
    let s1 := { s with isRunning := true }
    if probeOk then ({ s1 with timerInterval := some s1.detectionInterval }, true)
    else ({ s1 with isRunning := false }, false)

/-- `SimpleRealDetection.stopDetection`. -/
def SRD_stop (s : SRDState) : SRDState × Bool :=
  if s.isRunning then ({ s with isRunning := false, timerInterval := none }, true)
  else (s, false)

/-- `SimpleRealDetection.updateSettings`: assigns the provided (truthy)
fields and nothing else — in particular it never touches the timer. -/
def SRD_updateSettings (s : SRDState) (newUrl : Option String) (newInterval : Option ℕ) :
    SRDState :=
  let s1 := match newUrl with
    | some u => if u ≠ "" then { s with cameraUrl := u } else s
    | none => s
  match newInterval with
  | some i => if i ≠ 0 then { s1 with detectionInterval := i } else s1
  | none => s1

/-- Lifecycle-relevant state of `AnimalDetectionService` (part_000). -/
structure ADSState where
  isRunning : Bool
  timerInterval : Option ℕ
  cameraUrl : String
  detectionInterval : ℕ
deriving DecidableEq, Repr

/-- `AnimalDetectionService.startDetection`: fail fast when already
running; set `isRunning`; probe the camera; the probe-failure branch
returns failure WITHOUT resetting `isRunning` (the outer catch that resets
it is not reached because the inner catch returns); on success create the
timer. -/
def ADS_start (s : ADSState) (probeOk : Bool) : ADSState × Bool :=
  if s.isRunning then (s, false)
  else
    let s1 := { s with isRunning := true }
    if probeOk then ({ s1 with timerInterval := some s1.detectionInterval }, true)
    else (s1, false)

/-- `AnimalDetectionService.stopDetection`. -/
def ADS_stop (s : ADSState) : ADSState × Bool :=
  if s.isRunning then ({ s with isRunning := false, timerInterval := none }, true)
  else (s, false)

/-- `AnimalDetectionService.updateSettings`: assigns truthy fields; only a
truthy `detectionInterval` while running triggers `stopDetection()` then
`startDetection()` (whose probe outcome is the `probeOk` parameter). -/
def ADS_updateSettings (s : ADSState) (newUrl : Option String) (newInterval : Option ℕ)
    (probeOk : Bool) : ADSState :=
  let s1 := match newUrl with
    | some u => if u ≠ "" then { s with cameraUrl := u } else s
    | none => s
  match newInterval with
  | some i =>
    if i ≠ 0 then
      let s2 := { s1 with detectionInterval := i }
      if s2.isRunning then (ADS_start (ADS_stop s2).1 probeOk).1 else s2
    else s1
  | none => s1

/-- C5 (code-bug evaluation): starting the idle `AnimalDetectionService`
with a failing camera probe returns failure but leaves `isRunning = true`
with no timer, so the service is not Idle and a second `start()` is
rejected as already-running; the sibling `SimpleRealDetection` resets the
flag as the spec describes, returning failure with its state unchanged. -/
theorem start_probe_fail_divergence :
    (ADS_start ⟨false, none, "http://cam", 2000⟩ false).2 = false ∧
    (ADS_start ⟨false, none, "http://cam", 2000⟩ false).1.isRunning = true ∧
    (ADS_start ⟨false, none, "http://cam", 2000⟩ false).1.timerInterval = none ∧
    (ADS_start (ADS_start ⟨false, none, "http://cam", 2000⟩ false).1 true).2 = false ∧
    (SRD_start ⟨false, none, "http://cam", 3000, 0⟩ false).2 = false ∧
    (SRD_start ⟨false, none, "http://cam", 3000, 0⟩ false).1
      = ⟨false, none, "http://cam", 3000, 0⟩ := by
  refine ⟨rfl, rfl, rfl, rfl, rfl, rfl⟩

/-- C5 (second start while running, both variants): a second consecutive
`start()` without an intervening `stop()` returns failure and leaves the
state unchanged. -/
theorem start_twice_fails (sA : ADSState) (sS : SRDState) :
    (sA.isRunning = true → ADS_start sA true = (sA, false)) ∧
    (sS.isRunning = true → SRD_start sS true = (sS, false)) := by
  constructor
  · intro h
    unfold ADS_start
    rw [if_pos h]
  · intro h
    unfold SRD_start
    rw [if_pos h]

/-- C5 witness for `start_twice_fails` at concrete running states. -/
theorem start_twice_fails_witness :
    ADS_start ⟨true, some 2000, "http://cam", 2000⟩ true
      = (⟨true, some 2000, "http://cam", 2000⟩, false) ∧
    SRD_start ⟨true, some 3000, "http://cam", 3000, 0⟩ true
      = (⟨true, some 3000, "http://cam", 3000, 0⟩, false) :=
  ⟨(start_twice_fails ⟨true, some 2000, "http://cam", 2000⟩
      ⟨true, some 3000, "http://cam", 3000, 0⟩).1 rfl,
   (start_twice_fails ⟨true, some 2000, "http://cam", 2000⟩
      ⟨true, some 3000, "http://cam", 3000, 0⟩).2 rfl⟩

/-- C6 counterexample: `updateSettings({detectionInterval: 5000})` on the
running route-wired `SimpleRealDetection` performs no stop/start at all —
the live timer still fires at the old 3000 ms interval, so the new interval
is not in effect. -/
theorem srd_updateSettings_no_restart :
    SRD_updateSettings ⟨true, some 3000, "http://cam", 3000, 0⟩ none (some 5000)
      = ⟨true, some 3000, "http://cam", 5000, 0⟩ ∧
    ¬ (SRD_updateSettings ⟨true, some 3000, "http://cam", 3000, 0⟩ none
        (some 5000)).timerInterval = some 5000 := by
  refine ⟨rfl, by decide⟩

/-- C6 (amended): only the `AnimalDetectionService` variant restarts, and
only when a nonzero `detectionInterval` is supplied while running — it then
stops and restarts, ending running with the new interval in effect (probe
succeeding); a cameraUrl-only update merely assigns the field; the
`SimpleRealDetection` variant never restarts: `isRunning` and the live
timer (with its old interval) are unchanged by every `updateSettings`
call. -/
theorem updateSettings_restart_behavior :
    (∀ (s : ADSState) (i : ℕ), s.isRunning = true → i ≠ 0 →
      ADS_updateSettings s none (some i) true
        = { s with detectionInterval := i, isRunning := true, timerInterval := some i }) ∧
    (∀ (s : ADSState) (u : String) (probeOk : Bool), u ≠ "" →
      ADS_updateSettings s (some u) none probeOk = { s with cameraUrl := u }) ∧
    (∀ (s : SRDState) (newUrl : Option String) (newInterval : Option ℕ),
      (SRD_updateSettings s newUrl newInterval).isRunning = s.isRunning ∧
      (SRD_updateSettings s newUrl newInterval).timerInterval = s.timerInterval) := by
  refine ⟨?_, ?_, ?_⟩
  · intro s i hrun hi
    obtain ⟨run, timer, url, di⟩ := s
    simp only at hrun
    subst hrun
    simp [ADS_updateSettings, ADS_stop, ADS_start, hi]
  · intro s u probeOk hu
    simp [ADS_updateSettings, hu]
  · intro s newUrl newInterval
    obtain ⟨run, timer, url, di, lt⟩ := s
    unfold SRD_updateSettings
    rcases newUrl with _ | u <;> rcases newInterval with _ | i
    · exact ⟨rfl, rfl⟩
    · dsimp only
      split <;> exact ⟨rfl, rfl⟩
    · dsimp only
      split <;> exact ⟨rfl, rfl⟩
    · dsimp only
      split <;> split <;> exact ⟨rfl, rfl⟩

/-- C6 witness: `updateSettings_restart_behavior` at concrete states — the
ADS variant restarted onto interval 5000, the SRD variant left untouched. -/
theorem updateSettings_restart_behavior_witness :
    ADS_updateSettings ⟨true, some 2000, "http://cam", 2000⟩ none (some 5000) true
      = ⟨true, some 5000, "http://cam", 5000⟩ ∧
    (SRD_updateSettings ⟨true, some 3000, "http://cam", 3000, 0⟩ none
      (some 5000)).timerInterval = some 3000 :=
  ⟨(updateSettings_restart_behavior.1 ⟨true, some 2000, "http://cam", 2000⟩ 5000 rfl
      (by decide)),
   (updateSettings_restart_behavior.2.2 ⟨true, some 3000, "http://cam", 3000, 0⟩ none
      (some 5000)).2⟩

/-- C2 counterexample: two candidates whose boxes have IoU exactly equal to
the threshold `0.4` both survive `applyNMS` (the code suppresses only on
`iou > nmsThreshold`), refuting the strict `IoU < nmsIoUThreshold` claimed
for any two survivors. -/
theorem nms_survivors_iou_eq_threshold :
    applyNMS [⟨"elephant", 9/10, ⟨0, 0, 1, 1⟩⟩, ⟨"bear", 8/10, ⟨3/7, 0, 1, 1⟩⟩]
      = [⟨"elephant", 9/10, ⟨0, 0, 1, 1⟩⟩, ⟨"bear", 8/10, ⟨3/7, 0, 1, 1⟩⟩] ∧
    calculateIoU ⟨0, 0, 1, 1⟩ ⟨3/7, 0, 1, 1⟩ = nmsThreshold ∧
    ¬ calculateIoU ⟨0, 0, 1, 1⟩ ⟨3/7, 0, 1, 1⟩ < nmsThreshold := by
  have hiou : calculateIoU ⟨0, 0, 1, 1⟩ ⟨3/7, 0, 1, 1⟩ = 2/5 := by
    norm_num [calculateIoU]
  refine ⟨?_, by rw [hiou]; rfl, by rw [hiou]; norm_num [nmsThreshold]⟩
  rw [applyNMS]
  rw [if_neg (by norm_num)]
  have hsort :
      List.insertionSort confGE
        [⟨"elephant", 9/10, ⟨0, 0, 1, 1⟩⟩, ⟨"bear", 8/10, ⟨3/7, 0, 1, 1⟩⟩]
        = [(⟨"elephant", 9/10, ⟨0, 0, 1, 1⟩⟩ : Detection), ⟨"bear", 8/10, ⟨3/7, 0, 1, 1⟩⟩] := by
    simp only [List.insertionSort, List.orderedInsert]
    rw [if_pos (by norm_num [confGE])]
  rw [hsort, nmsLoop]
  congr 1
  have hfil : List.filter
      (fun d2 : Detection =>
        decide (calculateIoU
          (⟨"elephant", 9/10, ⟨0, 0, 1, 1⟩⟩ : Detection).bbox d2.bbox ≤ nmsThreshold))
      [⟨"bear", 8/10, ⟨3/7, 0, 1, 1⟩⟩]
      = [(⟨"bear", 8/10, ⟨3/7, 0, 1, 1⟩⟩ : Detection)] := by
    rw [List.filter_cons_of_pos, List.filter_nil]
    show decide (calculateIoU (⟨0, 0, 1, 1⟩ : BBox) (⟨3/7, 0, 1, 1⟩ : BBox) ≤ nmsThreshold) = true
    rw [decide_eq_true_eq, hiou]
    norm_num [nmsThreshold]
  rw [hfil, nmsLoop, List.filter_nil, nmsLoop]

/-- The cooldown window `this.detectionCooldown = 10000` ms of
`SimpleRealDetection`. -/
def detectionCooldown : ℕ := 10000

/-- The analysis summary returned by
`SimpleRealDetection.performImageAnalysis` (the fields the detection gate
reads). -/
structure AnalysisResult where
  hasSignificantContent : Bool
  confidence : ℚ
  brightness : ℚ

/-- The publication gate of `SimpleRealDetection.analyzeFrame`: significant
content, `confidence > 0.75`, `brightness > 50` and
`now - lastDetectionTime > detectionCooldown`. -/
def analyzeGate (last now : ℕ) (a : AnalysisResult) : Bool :=
  a.hasSignificantContent && decide ((3 : ℚ)/4 < a.confidence)
    && decide ((50 : ℚ) < a.brightness) && decide (detectionCooldown < now - last)

/-- One tick of the cooldown controller: when the gate passes, a detection
is forwarded and `lastDetectionTime` is set to `now`; otherwise
`lastDetectionTime` is left alone. -/
def tickStep (last now : ℕ) (a : AnalysisResult) : ℕ × Bool :=
  if analyzeGate last now a then (now, true) else (last, false)

/-- Runs a trace of ticks (timestamp plus analysis outcome) through the
cooldown state, collecting the timestamps at which detections are
published.  The source initialises `lastDetectionTime = 0`. -/
def runFrom (last : ℕ) : List (ℕ × AnalysisResult) → List ℕ
  | [] => []
  | (now, a) :: rest =>
    if analyzeGate last now a then now :: runFrom now rest else runFrom last rest

theorem analyzeGate_cooldown (last now : ℕ) (a : AnalysisResult)
    (h : analyzeGate last now a = true) : last + detectionCooldown < now := by
  simp only [analyzeGate, Bool.and_eq_true, decide_eq_true_eq] at h
  omega

theorem runFrom_mem :
    ∀ (trace : List (ℕ × AnalysisResult)) (last t : ℕ),
      t ∈ runFrom last trace → last + detectionCooldown < t
  | [], _, _, h => absurd h (List.not_mem_nil _)
  | (now, a) :: rest, last, t, h => by
    rw [runFrom] at h
    split at h
    · rename_i hgate
      have hnow := analyzeGate_cooldown last now a hgate
      rcases List.mem_cons.mp h with rfl | hmem
      · exact hnow
      · have := runFrom_mem rest now t hmem
        omega
    · exact runFrom_mem rest last t h

theorem runFrom_pairwise :
    ∀ (trace : List (ℕ × AnalysisResult)) (last : ℕ),
      (runFrom last trace).Pairwise (fun t0 t => t0 + detectionCooldown < t)
  | [], _ => by rw [runFrom]; exact List.Pairwise.nil
  | (now, a) :: rest, last => by
    rw [runFrom]
    split
    · exact List.Pairwise.cons (fun t ht => runFrom_mem rest now t ht)
        (runFrom_pairwise rest now)
    · exact runFrom_pairwise rest last

/-- C4: along every execution trace, once a detection is published at `t0`,
every later published detection happens strictly after `t0 +
detectionCooldown` (so none at any `t ≤ t0 + cooldownMs`); a tick forwards
detections only when `now - lastDetectionTime > detectionCooldown`, setting
`lastDetectionTime := now` exactly then, and leaves it unchanged
otherwise. -/
theorem cooldown_invariant (last now : ℕ) (a : AnalysisResult)
    (trace : List (ℕ × AnalysisResult)) :
    (runFrom last trace).Pairwise (fun t0 t => t0 + detectionCooldown < t) ∧
    ((tickStep last now a).2 = true →
      detectionCooldown < now - last ∧ (tickStep last now a).1 = now) ∧
    ((tickStep last now a).2 = false → (tickStep last now a).1 = last) := by
  refine ⟨runFrom_pairwise trace last, ?_, ?_⟩
  · intro h
    unfold tickStep at h ⊢
    split at h
    · rename_i hgate
      have := analyzeGate_cooldown last now a hgate
      rw [if_pos hgate]
      exact ⟨by omega, rfl⟩
    · exact absurd h (by simp)
  · intro h
    unfold tickStep at h ⊢
    split at h
    · exact absurd h (by simp)
    · rename_i hgate
      rw [if_neg hgate]

/-- C4 witness: `cooldown_invariant` on a concrete three-tick trace where
every analysis qualifies: the middle tick at 25000 (only 5000 ms after the
detection at 20000) is not published, and the published times 20000 and
40000 are more than the cooldown apart. -/
theorem cooldown_invariant_witness :
    (runFrom 0 [(20000, ⟨true, 9/10, 100⟩), (25000, ⟨true, 9/10, 100⟩),
        (40000, ⟨true, 9/10, 100⟩)]).Pairwise
      (fun t0 t => t0 + detectionCooldown < t) ∧
    runFrom 0 [(20000, ⟨true, 9/10, 100⟩), (25000, ⟨true, 9/10, 100⟩),
        (40000, ⟨true, 9/10, 100⟩)] = [20000, 40000] :=
  ⟨(cooldown_invariant 0 20000 ⟨true, 9/10, 100⟩ _).1, by
    norm_num [runFrom, analyzeGate, detectionCooldown]⟩

/-- The image characteristics read by
`SimpleRealDetection.performImageAnalysis`: mean and standard deviation of
the first channel and the metadata width. -/
structure ImageStats where
  brightness : ℚ
  variance : ℚ
  width : ℕ

/-- Embeds `SimpleRealDetection.performImageAnalysis` (success path): the
lighting/variance flags, the additive confidence build-up from base `0.3`,
the darkness/brightness penalty, the `(rand - 0.5) * 0.1` jitter, and the
final clamp `max(0.1, min(0.95, confidence))`. -/
def performImageAnalysis (st : ImageStats) (rand : ℚ) : AnalysisResult :=
  let hasGoodLighting := decide (10 < st.brightness) && decide (st.brightness < 240)
  let hasVariance := decide (15 < st.variance)
  let hasSignificantContent := hasGoodLighting && hasVariance
  let c0 : ℚ := 3/10
  let c1 := if hasGoodLighting && decide (50 < st.brightness) then c0 + 3/10 else c0
  let c2 := if hasVariance && decide (30 < st.variance) then c1 + 3/10 else c1
  let c3 := if 320 < st.width then c2 + 1/10 else c2
  let c4 := if st.brightness < 20 ∨ 200 < st.brightness then c3 - 2/5 else c3
  let c5 := c4 + (rand - 1/2) * (1/10)
  ⟨hasSignificantContent, max (1/10) (min (19/20) c5), st.brightness⟩

/-- The detection construction of `SimpleRealDetection.analyzeFrame`: when
the publication gate passes, a single detection with class "elephant", the
analysis confidence and a synthesized box is produced and
`lastDetectionTime` is set to `now`. -/
def analyzeFrameDetect (last now : ℕ) (a : AnalysisResult) (r1 r2 r3 r4 : ℚ) :
    Option Detection × ℕ :=
  if analyzeGate last now a then
    (some ⟨"elephant", a.confidence, simpleBBox r1 r2 r3 r4⟩, now)
  else (none, last)

theorem performImageAnalysis_confidence_le (st : ImageStats) (rand : ℚ) :
    (performImageAnalysis st rand).confidence ≤ 19/20 := by
  unfold performImageAnalysis
  exact max_le (by norm_num) (min_le_left _ _)

/-- C10: every detection the route-wired service publishes has class
exactly "elephant" and confidence strictly above `0.75` and at most `0.95`
(the analysis clamps confidence to `[0.1, 0.95]`, the gate requires
`> 0.75`). -/
theorem published_detection_shape (st : ImageStats) (rand : ℚ) (last now : ℕ)
    (r1 r2 r3 r4 : ℚ) (d : Detection)
    (h : (analyzeFrameDetect last now (performImageAnalysis st rand) r1 r2 r3 r4).1
      = some d) :
    d.cls = "elephant" ∧ 3/4 < d.confidence ∧ d.confidence ≤ 19/20 := by
  unfold analyzeFrameDetect at h
  split at h
  · rename_i hgate
    simp only at h
    injection h with h
    subst h
    refine ⟨rfl, ?_, performImageAnalysis_confidence_le st rand⟩
    simp only [analyzeGate, Bool.and_eq_true, decide_eq_true_eq] at hgate
    exact hgate.1.1.2
  · exact absurd h (by simp)

/-- C10 witness: a bright, varied, high-resolution frame at `now = 20000`
with no prior detection publishes an elephant detection whose confidence is
the clamp ceiling `0.95`. -/
theorem published_detection_shape_witness :
    (⟨"elephant", (19 : ℚ)/20, simpleBBox 0 0 0 0⟩ : Detection).cls = "elephant" ∧
    (3 : ℚ)/4 < (⟨"elephant", (19 : ℚ)/20, simpleBBox 0 0 0 0⟩ : Detection).confidence ∧
    (⟨"elephant", (19 : ℚ)/20, simpleBBox 0 0 0 0⟩ : Detection).confidence ≤ 19/20 :=
  published_detection_shape ⟨100, 50, 640⟩ (1/2) 0 20000 0 0 0 0
    ⟨"elephant", 19/20, simpleBBox 0 0 0 0⟩
    (by norm_num [analyzeFrameDetect, analyzeGate, performImageAnalysis, detectionCooldown])

/-- The ordered candidate endpoint list of
`SimpleRealDetection.analyzeFrame`. -/
def candidateUrls (baseUrl : String) : List String :=
  [baseUrl ++ "/shot.jpg", baseUrl ++ "/snapshot.jpg", baseUrl ++ "/image.jpg",
   baseUrl ++ "/capture.jpg", baseUrl]

/-- The fetch loop of `analyzeFrame` with the per-URL request outcome as an
oracle: try each URL in order, stop at the first success.  The result is
the list of URLs actually attempted together with the accepted URL (`none`
models the "Could not get image from any camera endpoint" error). -/
def tryUrls (ok : String → Bool) : List String → List String × Option String
  | [] => ([], none)
  | u :: rest =>
    if ok u then ([u], some u)
    else
      let r := tryUrls ok rest
      (u :: r.1, r.2)

/-- Frame fetch over the five candidate endpoints. -/
def fetchFrame (ok : String → Bool) (baseUrl : String) : List String × Option String :=
  tryUrls ok (candidateUrls baseUrl)

theorem tryUrls_eq (ok : String → Bool) :
    ∀ l : List String,
      tryUrls ok l
        = (l.takeWhile (fun u => !ok u) ++ (l.dropWhile (fun u => !ok u)).take 1, l.find? ok)
  | [] => rfl
  | u :: rest => by
    by_cases h : ok u
    · simp [tryUrls, h, List.takeWhile_cons, List.dropWhile_cons, List.find?_cons]
    · simp [tryUrls, h, List.takeWhile_cons, List.dropWhile_cons, List.find?_cons,
        tryUrls_eq ok rest]

/-- C7: frame fetch builds exactly the five candidate URLs in priority
order; the accepted response is the first successful candidate; the
attempted URLs are precisely the failing prefix plus the first success (so
nothing later is attempted after a success); and the fetch fails if and
only if every one of the five candidates fails. -/
theorem fetchFrame_spec (ok : String → Bool) (baseUrl : String) :
    candidateUrls baseUrl
      = [baseUrl ++ "/shot.jpg", baseUrl ++ "/snapshot.jpg", baseUrl ++ "/image.jpg",
         baseUrl ++ "/capture.jpg", baseUrl] ∧
    (fetchFrame ok baseUrl).2 = (candidateUrls baseUrl).find? ok ∧
    (fetchFrame ok baseUrl).1
      = (candidateUrls baseUrl).takeWhile (fun u => !ok u)
        ++ ((candidateUrls baseUrl).dropWhile (fun u => !ok u)).take 1 ∧
    ((fetchFrame ok baseUrl).2 = none ↔ ∀ u ∈ candidateUrls baseUrl, ok u = false) := by
  refine ⟨rfl, ?_, ?_, ?_⟩
  · rw [fetchFrame, tryUrls_eq]
  · rw [fetchFrame, tryUrls_eq]
  · rw [fetchFrame, tryUrls_eq]
    simp only [List.find?_eq_none, Bool.not_eq_true]

/-- C7 witness: with every endpoint down the result is the failure case;
with every endpoint up, the first candidate `{baseUrl}/shot.jpg` is
accepted. -/
theorem fetchFrame_spec_witness :
    (fetchFrame (fun _ => false) "http://cam").2 = none ∧
    (fetchFrame (fun _ => true) "http://cam").2 = some ("http://cam" ++ "/shot.jpg") := by
  constructor
  · exact (fetchFrame_spec (fun _ => false) "http://cam").2.2.2.mpr (fun u _ => rfl)
  · rw [(fetchFrame_spec (fun _ => true) "http://cam").2.1]
    rfl

/-- Embeds `notifyDetections` (identical in all three services): iterate
over the registered callbacks in order; each invocation is wrapped in its
own try/catch, so a throwing callback is recorded (logged) and the
iteration continues.  The return type is a plain list — the function is
total, i.e. publish itself never throws.  Callbacks are identified by
naturals; `behavior` says whether a given callback returns or throws when
invoked with the detection list. -/
def notifyDetections (behavior : ℕ → List Detection → Except String Unit)
    (detections : List Detection) : List ℕ → List (ℕ × Option String)
  | [] => []
  | c :: rest =>
    (match behavior c detections with
     | Except.ok _ => (c, none)
     | Except.error e => (c, some e)) :: notifyDetections behavior detections rest

/-- C9: publish invokes every currently-registered callback exactly once,
in registration order, with the detection list — whatever subset of
callbacks throws — and publish itself returns normally (it is a total
function into a plain list). -/
theorem publish_invokes_all (behavior : ℕ → List Detection → Except String Unit)
    (detections : List Detection) (callbacks : List ℕ) :
    (notifyDetections behavior detections callbacks).map Prod.fst = callbacks ∧
    ∀ c : ℕ, ((notifyDetections behavior detections callbacks).map Prod.fst).count c
      = callbacks.count c := by
  have hmap : (notifyDetections behavior detections callbacks).map Prod.fst = callbacks := by
    induction callbacks with
    | nil => rfl
    | cons c rest ih =>
      rw [notifyDetections, List.map_cons, ih]
      cases behavior c detections <;> rfl
  exact ⟨hmap, fun c => by rw [hmap]⟩

/-- A concrete callback behavior where callback 1 throws and the others
return. -/
def throwingMiddle : ℕ → List Detection → Except String Unit :=
  fun c _ => if c = 1 then Except.error "subscriber failure" else Except.ok ()

/-- C9 witness: with three subscribers of which the middle one throws, all
three are still invoked exactly once, in order, and the throw is caught
per-callback. -/
theorem publish_invokes_all_witness :
    (notifyDetections throwingMiddle [] [0, 1, 2]).map Prod.fst = [0, 1, 2] ∧
    notifyDetections throwingMiddle [] [0, 1, 2]
      = [(0, none), (1, some "subscriber failure"), (2, none)] :=
  ⟨(publish_invokes_all throwingMiddle [] [0, 1, 2]).1, rfl⟩
